import Mathlib

/-! # User API: age calculation, pagination and HTTP error mapping

A shallow embedding of the user service (`internal/models/user.go`,
`internal/service/user_service.go`, `internal/handler/user_handler.go`,
`internal/middleware/error_handler.go`) together with the properties its
specification states about it.

Conventions.
* Go's `int` is the 64-bit signed integer; values are kept in `Int` and every
  arithmetic result is passed through `wrap64`, which reduces it modulo `2^64`
  into the signed range.
* A `time.Time` is represented by the civil date that its methods `Year`,
  `Month`, `Day` and `YearDay` read.  `time.Now()` is an explicit argument.
* A Go `error` value is represented by its message (`err.Error()`).
-/

set_option autoImplicit false

namespace UserApi

/-! ## Machine integers -/

/-- Largest value of Go's `int` on a 64-bit machine. -/
def maxInt : Int := 9223372036854775807

/-- Smallest value of Go's `int` on a 64-bit machine. -/
def minInt : Int := -9223372036854775808

/-- Two's-complement reduction of an integer result into the signed 64-bit range. -/
def wrap64 (x : Int) : Int :=
  (x + 9223372036854775808) % 18446744073709551616 - 9223372036854775808

/-- Membership in the range of Go's `int`. -/
def IsInt64 (x : Int) : Prop := minInt ≤ x ∧ x ≤ maxInt

instance (x : Int) : Decidable (IsInt64 x) := by
  unfold IsInt64; infer_instance

/-! ## Civil dates (`time.Time` as read by `Year`, `Month`, `Day`, `YearDay`) -/

/-- The civil date of a `time.Time` value in its own location. -/
structure Time where
  year : Int
  month : Nat
  day : Nat
  deriving DecidableEq, Repr

/-- Gregorian leap-year rule used by package `time`. -/
def isLeap (year : Int) : Bool :=
  year % 4 == 0 && (year % 100 != 0 || year % 400 == 0)

/-- Number of days of a non-leap year that precede the first day of `month`. -/
def daysBefore (month : Nat) : Nat :=
  match month with
  | 0 => 0
  | 1 => 0
  | 2 => 31
  | 3 => 59
  | 4 => 90
  | 5 => 120
  | 6 => 151
  | 7 => 181
  | 8 => 212
  | 9 => 243
  | 10 => 273
  | 11 => 304
  | 12 => 334
  | _ => 365

/-- Number of days in `month` of `year`. -/
def daysIn (year : Int) (month : Nat) : Nat :=
  if month = 2 ∧ isLeap year = true then 29
  else daysBefore (month + 1) - daysBefore month

/-- A civil date that exists in the calendar; every `time.Time` reads as one. -/
def Time.Valid (t : Time) : Prop :=
  1 ≤ t.month ∧ t.month ≤ 12 ∧ 1 ≤ t.day ∧ t.day ≤ daysIn t.year t.month

instance (t : Time) : Decidable t.Valid := by
  unfold Time.Valid; infer_instance

/-- Method `t.Year()`. -/
def Time.Year (t : Time) : Int := t.year

/-- Method `t.YearDay()`: the day of the year, 1 for 1 January, up to 365 or 366. -/
def Time.YearDay (t : Time) : Int :=
  (daysBefore t.month : Int) + (if isLeap t.year = true ∧ 3 ≤ t.month then 1 else 0) + t.day

/-- Calendar order on civil dates: `t` is a strictly later day than `u`. -/
def Time.After (t u : Time) : Prop :=
  u.year < t.year ∨ (u.year = t.year ∧ (u.month < t.month ∨ (u.month = t.month ∧ u.day < t.day)))

instance (t u : Time) : Decidable (t.After u) := by
  unfold Time.After; infer_instance

/-- The month and day of `t` come strictly before the month and day of `u`. -/
def Time.MonthDayBefore (t u : Time) : Prop :=
  t.month < u.month ∨ (t.month = u.month ∧ t.day < u.day)

instance (t u : Time) : Decidable (t.MonthDayBefore u) := by
  unfold Time.MonthDayBefore; infer_instance

/-- Method `t.AddDate(0, 0, 1)`: the following calendar day. -/
def Time.nextDay (t : Time) : Time :=
  if t.day < daysIn t.year t.month then { t with day := t.day + 1 }
  else if t.month < 12 then { t with month := t.month + 1, day := 1 }
  else { year := t.year + 1, month := 1, day := 1 }

/-! ## `models.CalculateAge` (internal/models/user.go, lines 49-65) -/

/-- Function `CalculateAge(dob)` evaluated when `time.Now()` reads as `now`. -/
def CalculateAge (now dob : Time) : Int :=
  let years := now.Year - dob.Year
  let years := if now.YearDay < dob.YearDay then years - 1 else years
  if years < 0 then 0 else years

/-- Age in completed calendar years, as the specification words it: the year
difference, less one exactly when the month and day of birth have not yet been
reached in the current year. -/
def completedYears (now dob : Time) : Int :=
  now.year - dob.year - (if now.MonthDayBefore dob then 1 else 0)

/-- Day-of-year offset of the first day of `month` in a year of leap status `b`. -/
def monthOffset (b : Bool) (month : Nat) : Nat :=
  daysBefore month + (if b = true ∧ 3 ≤ month then 1 else 0)

/-! ## Records (internal/models/user.go, lines 7-47) -/

/-- Modelled from the spec: the persisted record `sqlc.User` of the generated
package `db/sqlc`, which is not among the sources.  The specification's data
model gives it an integer identifier, a name and a date of birth; the service
reads exactly `user.ID`, `user.Name` and `user.Dob.Time`. -/
structure User where
  ID : Int
  Name : String
  Dob : Time
  deriving DecidableEq, Repr

/-- Type `models.CreateUserRequest`. -/
structure CreateUserRequest where
  Name : String
  Dob : String
  deriving DecidableEq, Repr

/-- Type `models.UpdateUserRequest`. -/
structure UpdateUserRequest where
  Name : String
  Dob : String
  deriving DecidableEq, Repr

/-- Type `models.UserResponse`. -/
structure UserResponse where
  ID : Int
  Name : String
  Dob : String
  deriving DecidableEq, Repr

/-- Type `models.UserWithAgeResponse`. -/
structure UserWithAgeResponse where
  ID : Int
  Name : String
  Dob : String
  Age : Int
  deriving DecidableEq, Repr

/-- Type `models.PaginatedUsersResponse`. -/
structure PaginatedUsersResponse where
  Users : List UserWithAgeResponse
  Total : Int
  Page : Int
  PageSize : Int
  TotalPages : Int
  deriving DecidableEq, Repr

/-! ## Outcomes of a Go call -/

/-- Result of a call returning `(T, error)`: a value, an error (by message), or
a run-time panic that unwinds the call. -/
inductive Outcome (α : Type) where
  | ok (a : α)
  | error (msg : String)
  | panic (msg : String)
  deriving DecidableEq, Repr

/-! ## Date formatting (`Time.Format` with layout `2006-01-02`) -/

/-- Package `time`'s `appendInt`: decimal digits, zero-padded to `width`, with a
leading minus sign for negative values. -/
def appendInt (x : Int) (width : Nat) : String :=
  let digits := Nat.toDigits 10 x.natAbs
  let pad := List.replicate (width - digits.length) '0'
  String.mk ((if x < 0 then ['-'] else []) ++ pad ++ digits)

/-- Method `t.Format(dateLayout)` with `dateLayout = "2006-01-02"`
(internal/service/user_service.go, line 15). -/
def Time.Format (t : Time) : String :=
  appendInt t.year 4 ++ "-" ++ appendInt t.month 2 ++ "-" ++ appendInt t.day 2

/-! ## The store adapter as seen by `ListUsers` (internal/repository/user_repository.go) -/

/-- Results of the two repository calls made by `ListUsers`: `repo.ListUsers(ctx)`
and `repo.CountUsers(ctx)`.  The count is an `int64`. -/
structure UserRepository where
  ListUsers : Except String (List User)
  CountUsers : Except String Int

/-! ## `userService` (internal/service/user_service.go) -/

/-- Method `toUserWithAgeResponse` (lines 175-182), evaluated when `time.Now()`
reads as `now`. -/
def toUserWithAgeResponse (now : Time) (user : User) : UserWithAgeResponse :=
  { ID := user.ID
    Name := user.Name
    Dob := user.Dob.Format
    Age := CalculateAge now user.Dob }

/-- Defaulting of `page` and `pageSize` (lines 80-89). -/
def normalize (page pageSize : Int) : Int × Int :=
  let page := if page < 1 then 1 else page
  let pageSize := if pageSize < 1 then 10 else pageSize
  let pageSize := if pageSize > 100 then 100 else pageSize
  (page, pageSize)

/-- Slice bounds `start`, `end` (lines 105-112) from the normalized `page` and
`pageSize` and `len(allUsers)`. -/
def sliceBounds (page pageSize len : Int) : Int × Int :=
  let start := wrap64 (wrap64 (page - 1) * pageSize)
  let start := if start > len then len else start
  let end_ := wrap64 (start + pageSize)
  let end_ := if end_ > len then len else end_
  (start, end_)

/-- The slice expression `xs[lo:hi]`: it panics unless `0 ≤ lo ≤ hi ≤ cap(xs)`.
`ListUsers` never lets `hi` exceed `len(xs)`, so the length is used as the
upper limit. -/
def sliceExpr {α : Type} (xs : List α) (lo hi : Int) : Option (List α) :=
  if 0 ≤ lo ∧ lo ≤ hi ∧ hi ≤ (xs.length : Int) then
    some ((xs.drop lo.toNat).take (hi.toNat - lo.toNat))
  else none

/-- Page count (lines 120-123): `int(total) / pageSize`, plus one when the
remainder is positive.  Integer division by zero panics (`none`). -/
def totalPages (total pageSize : Int) : Option Int :=
  if pageSize = 0 then none
  else
    let totalPages := wrap64 (Int.tdiv total pageSize)
    some (if Int.tmod total pageSize > 0 then wrap64 (totalPages + 1) else totalPages)

/-- Method `userService.ListUsers` (lines 79-134), evaluated when `time.Now()` reads as
`now` and the repository answers as `repo`. -/
def userService.ListUsers (now : Time) (repo : UserRepository) (page pageSize : Int) :
    Outcome PaginatedUsersResponse :=
  let (page, pageSize) := normalize page pageSize
  match repo.ListUsers with
  | .error err => .error err
  | .ok allUsers =>
    match repo.CountUsers with
    | .error err => .error err
    | .ok total =>
      let (start, end_) := sliceBounds page pageSize allUsers.length
      match sliceExpr allUsers start end_ with
      | none => .panic "slice bounds out of range"
      | some users =>
        let userResponses := users.map (toUserWithAgeResponse now)
        match totalPages total pageSize with
        | none => .panic "integer divide by zero"
        | some totalPages =>
          .ok { Users := userResponses
                Total := total
                Page := page
                PageSize := pageSize
                TotalPages := totalPages }

/-- The `service.UserService` interface (lines 17-23). -/
structure UserService where
  CreateUser : CreateUserRequest → Outcome UserResponse
  GetUserByID : Int → Outcome UserWithAgeResponse
  ListUsers : Int → Int → Outcome PaginatedUsersResponse
  UpdateUser : Int → UpdateUserRequest → Outcome UserResponse
  DeleteUser : Int → Outcome Unit

/-! ## `strconv.ParseInt` and `strconv.Atoi` in base 10 -/

/-- The two error kinds of package `strconv`: invalid syntax and value out of range. -/
inductive NumError where
  | malformed
  | outOfRange
  deriving DecidableEq, Repr

/-- The digit loop of `strconv.ParseUint(s, 10, bitSize)`, with `n` the value
read so far and `maxVal = 2^bitSize - 1`.  A byte that is not a decimal digit
is a syntax error with value 0; as soon as the value would exceed `maxVal` (or
64 bits) the loop stops with `maxVal` and a range error, without looking at
the remaining bytes. -/
def parseUintLoop (maxVal : Nat) : List Char → Nat → Nat × Option NumError
  | [], n => (n, none)
  | c :: cs, n =>
    if c.isDigit then
      let d := c.toNat - 48
      if n ≥ 18446744073709551615 / 10 + 1 then (maxVal, some .outOfRange)
      else if n * 10 + d > maxVal then (maxVal, some .outOfRange)
      else parseUintLoop maxVal cs (n * 10 + d)
    else (0, some .malformed)

/-- Decimal `strconv.ParseUint(s, 10, bitSize)` on the characters of `s`. -/
def ParseUint (cs : List Char) (bitSize : Nat) : Nat × Option NumError :=
  if cs.isEmpty then (0, some .malformed)
  else parseUintLoop (2 ^ bitSize - 1) cs 0

/-- Decimal `strconv.ParseInt(s, 10, bitSize)`: an optional sign, then
`ParseUint`.  A syntax error gives 0; a value outside the `bitSize`-bit signed
range gives the nearest bound together with a range error. -/
def ParseInt (s : String) (bitSize : Nat) : Int × Option NumError :=
  match s.toList with
  | [] => (0, some .malformed)
  | c :: rest =>
    let neg := c == '-'
    let body := if c == '+' || c == '-' then rest else c :: rest
    match ParseUint body bitSize with
    | (_, some .malformed) => (0, some .malformed)
    | (un, _) =>
      let cutoff : Int := 2 ^ (bitSize - 1)
      if !neg && (un : Int) ≥ cutoff then (cutoff - 1, some .outOfRange)
      else if neg && (un : Int) > cutoff then (-cutoff, some .outOfRange)
      else (if neg then -(un : Int) else (un : Int), none)

/-- Function `strconv.Atoi(s)` on a 64-bit machine.  Its fast path for inputs shorter
than 19 bytes computes the same value and error as `ParseInt(s, 10, 0)`, which
is what it calls otherwise. -/
def Atoi (s : String) : Int × Option NumError := ParseInt s 64

/-- The conversion `int32(x)` of an `int64` value. -/
def toInt32 (x : Int) : Int :=
  (x + 2147483648) % 4294967296 - 2147483648

/-! ## HTTP layer (internal/handler/user_handler.go, internal/middleware/error_handler.go) -/

/-- A JSON scalar stored in a `fiber.Map`. -/
inductive JsonValue where
  | bool (b : Bool)
  | str (s : String)
  deriving DecidableEq, Repr

/-- Payload written to the response. -/
inductive Body where
  | empty
  | user (u : UserResponse)
  | userWithAge (u : UserWithAgeResponse)
  | users (p : PaginatedUsersResponse)
  | map (fields : List (String × JsonValue))
  deriving DecidableEq, Repr

/-- Status code and payload of a response. -/
structure Response where
  status : Nat
  body : Body
  deriving DecidableEq, Repr

/-- A `*fiber.Error` as built by `fiber.NewError(code, message)`. -/
structure FiberError where
  Code : Nat
  Message : String
  deriving DecidableEq, Repr

/-- A Go `error` reaching the error handler: a `*fiber.Error` or any other error. -/
inductive GoError where
  | fiber (e : FiberError)
  | other (msg : String)
  deriving DecidableEq, Repr

/-- Method `err.Error()`. -/
def GoError.Error : GoError → String
  | .fiber e => e.Message
  | .other msg => msg

/-- What a handler function does: writes a response and returns `nil`, returns
an error, or is unwound by a panic. -/
inductive HandlerResult where
  | sent (r : Response)
  | failed (e : FiberError)
  | panicked (msg : String)
  deriving DecidableEq, Repr

/-- One invocation of the domain service, with its arguments. -/
inductive ServiceCall where
  | CreateUser (req : CreateUserRequest)
  | GetUserByID (id : Int)
  | ListUsers (page pageSize : Int)
  | UpdateUser (id : Int) (req : UpdateUserRequest)
  | DeleteUser (id : Int)
  deriving DecidableEq, Repr

/-- A handler run: its result and the service invocations it made, in order. -/
structure HandlerRun where
  result : HandlerResult
  calls : List ServiceCall
  deriving DecidableEq, Repr

/-- The request as the handlers read it, and the two library calls they make on
it.  `Params` and `Query` give the raw route and query parameters (the empty
string when absent); `BodyParserCreate`/`BodyParserUpdate` are `c.BodyParser(&req)`
for the two request types; `ValidateCreate`/`ValidateUpdate` are
`models.ValidateStruct(&req)` (internal/models/validator.go), returning the
error's message when validation fails. -/
structure Ctx where
  Params : String → String
  Query : String → String
  BodyParserCreate : Except String CreateUserRequest
  BodyParserUpdate : Except String UpdateUserRequest
  ValidateCreate : CreateUserRequest → Option String
  ValidateUpdate : UpdateUserRequest → Option String

/-- Method `c.Query(key, defaultValue)`: the default stands in for an empty value. -/
def Ctx.QueryOr (c : Ctx) (key defaultValue : String) : String :=
  if (c.Query key).isEmpty then defaultValue else c.Query key

/-- Constant `fiber.StatusOK`. -/
def StatusOK : Nat := 200

/-- Constant `fiber.StatusCreated`. -/
def StatusCreated : Nat := 201

/-- Constant `fiber.StatusBadRequest`. -/
def StatusBadRequest : Nat := 400

/-- Constant `fiber.StatusNotFound`. -/
def StatusNotFound : Nat := 404

/-- Constant `fiber.StatusInternalServerError`. -/
def StatusInternalServerError : Nat := 500

/-- Handler `UserHandler.CreateUser` (lines 19-36). -/
def UserHandler.CreateUser (service : UserService) (c : Ctx) : HandlerRun :=
  match c.BodyParserCreate with
  | .error _ => ⟨.failed ⟨StatusBadRequest, "Invalid request body"⟩, []⟩
  | .ok req =>
    match c.ValidateCreate req with
    | some msg => ⟨.failed ⟨StatusBadRequest, msg⟩, []⟩
    | none =>
      match service.CreateUser req with
      | .error msg => ⟨.failed ⟨StatusInternalServerError, msg⟩, [.CreateUser req]⟩
      | .panic msg => ⟨.panicked msg, [.CreateUser req]⟩
      | .ok user => ⟨.sent ⟨StatusCreated, .user user⟩, [.CreateUser req]⟩

/-- Handler `UserHandler.GetUserByID` (lines 38-52).  The conversion `int32(id)`
is applied to the parsed identifier before the service call. -/
def UserHandler.GetUserByID (service : UserService) (c : Ctx) : HandlerRun :=
  let idParam := c.Params "id"
  match ParseInt idParam 32 with
  | (_, some _) => ⟨.failed ⟨StatusBadRequest, "Invalid user ID"⟩, []⟩
  | (id, none) =>
    match service.GetUserByID (toInt32 id) with
    | .error _ => ⟨.failed ⟨StatusNotFound, "User not found"⟩, [.GetUserByID (toInt32 id)]⟩
    | .panic msg => ⟨.panicked msg, [.GetUserByID (toInt32 id)]⟩
    | .ok user => ⟨.sent ⟨StatusOK, .userWithAge user⟩, [.GetUserByID (toInt32 id)]⟩

/-- Handler `UserHandler.ListUsers` (lines 54-65); the errors of `Atoi` are
discarded. -/
def UserHandler.ListUsers (service : UserService) (c : Ctx) : HandlerRun :=
  let page := (Atoi (c.QueryOr "page" "1")).1
  let pageSize := (Atoi (c.QueryOr "page_size" "10")).1
  match service.ListUsers page pageSize with
  | .error msg => ⟨.failed ⟨StatusInternalServerError, msg⟩, [.ListUsers page pageSize]⟩
  | .panic msg => ⟨.panicked msg, [.ListUsers page pageSize]⟩
  | .ok users => ⟨.sent ⟨StatusOK, .users users⟩, [.ListUsers page pageSize]⟩

/-- Handler `UserHandler.UpdateUser` (lines 67-90). -/
def UserHandler.UpdateUser (service : UserService) (c : Ctx) : HandlerRun :=
  let idParam := c.Params "id"
  match ParseInt idParam 32 with
  | (_, some _) => ⟨.failed ⟨StatusBadRequest, "Invalid user ID"⟩, []⟩
  | (id, none) =>
    match c.BodyParserUpdate with
    | .error _ => ⟨.failed ⟨StatusBadRequest, "Invalid request body"⟩, []⟩
    | .ok req =>
      match c.ValidateUpdate req with
      | some msg => ⟨.failed ⟨StatusBadRequest, msg⟩, []⟩
      | none =>
        match service.UpdateUser (toInt32 id) req with
        | .error msg =>
          ⟨.failed ⟨StatusInternalServerError, msg⟩, [.UpdateUser (toInt32 id) req]⟩
        | .panic msg => ⟨.panicked msg, [.UpdateUser (toInt32 id) req]⟩
        | .ok user => ⟨.sent ⟨StatusOK, .user user⟩, [.UpdateUser (toInt32 id) req]⟩

/-- Function `middleware.ErrorHandler` (internal/middleware/error_handler.go, lines 9-23):
the status is the code of a `*fiber.Error` and 500 otherwise; the body is the
map with keys `error` and `msg`. -/
def ErrorHandler (err : GoError) : Response :=
  let code :=
    match err with
    | .fiber e => e.Code
    | .other _ => StatusInternalServerError
  { status := code
    body := .map [("error", .bool true), ("msg", .str err.Error)] }

/-! # Theorems -/

/-! ## Properties of the day-of-year reading -/

/-- The day of the year is the month offset plus the day of the month. -/
theorem yearDay_eq_monthOffset (t : Time) :
    t.YearDay = ((monthOffset (isLeap t.year) t.month + t.day : Nat) : Int) := by
  unfold Time.YearDay monthOffset
  split_ifs <;> push_cast <;> omega

/-- The month offset does not decrease from one month to the next. -/
theorem monthOffset_le_succ (b : Bool) (m : Nat) :
    monthOffset b m ≤ monthOffset b (m + 1) := by
  unfold monthOffset
  rcases Nat.lt_or_ge m 13 with h | h
  · cases b <;> interval_cases m <;> simp [daysBefore]
  · obtain ⟨k, rfl⟩ : ∃ k, m = k + 13 := ⟨m - 13, by omega⟩
    have h1 : daysBefore (k + 13) = 365 := rfl
    have h2 : daysBefore (k + 13 + 1) = 365 := rfl
    rw [h1, h2]
    cases b <;> simp

/-- The month offset is monotone in the month. -/
theorem monthOffset_mono (b : Bool) : Monotone (monthOffset b) :=
  monotone_nat_of_le_succ (monthOffset_le_succ b)

/-- The offset of a month plus its number of days is the offset of the next month. -/
theorem monthOffset_add_daysIn (y : Int) (m : Nat) (h1 : 1 ≤ m) (h12 : m ≤ 12) :
    monthOffset (isLeap y) m + daysIn y m = monthOffset (isLeap y) (m + 1) := by
  unfold monthOffset daysIn
  cases isLeap y <;> interval_cases m <;> simp [daysBefore]

/-- A valid date in an earlier month has a smaller day of the year, in years of
equal leap status. -/
theorem yearDay_lt_of_month_lt (b : Bool) (t u : Time) (ht : t.Valid) (hu : u.Valid)
    (hlt : isLeap t.year = b) (hlu : isLeap u.year = b) (hm : t.month < u.month) :
    t.YearDay < u.YearDay := by
  rw [yearDay_eq_monthOffset, yearDay_eq_monthOffset, hlt, hlu]
  obtain ⟨ht1, ht2, _, ht4⟩ := ht
  obtain ⟨_, _, hu3, _⟩ := hu
  have hstep := monthOffset_add_daysIn t.year t.month ht1 ht2
  rw [hlt] at hstep
  have hmono : monthOffset b (t.month + 1) ≤ monthOffset b u.month :=
    monthOffset_mono b hm
  have : monthOffset b t.month + t.day < monthOffset b u.month + u.day := by omega
  exact_mod_cast this

/-- Within years of equal leap status, comparing days of the year is the same
as comparing month and day. -/
theorem yearDay_lt_iff_monthDayBefore (t u : Time) (ht : t.Valid) (hu : u.Valid)
    (hl : isLeap t.year = isLeap u.year) :
    t.YearDay < u.YearDay ↔ t.MonthDayBefore u := by
  unfold Time.MonthDayBefore
  rcases Nat.lt_trichotomy t.month u.month with h | h | h
  · have := yearDay_lt_of_month_lt (isLeap u.year) t u ht hu hl rfl h
    constructor
    · intro _; exact Or.inl h
    · intro _; exact this
  · rw [yearDay_eq_monthOffset, yearDay_eq_monthOffset, hl, h]
    constructor
    · intro hlt
      have : monthOffset (isLeap u.year) u.month + t.day
          < monthOffset (isLeap u.year) u.month + u.day := by exact_mod_cast hlt
      right; exact ⟨rfl, by omega⟩
    · intro hlt
      have : t.day < u.day := by omega
      have : monthOffset (isLeap u.year) u.month + t.day
          < monthOffset (isLeap u.year) u.month + u.day := by omega
      exact_mod_cast this
  · have := yearDay_lt_of_month_lt (isLeap u.year) u t hu ht rfl hl h
    constructor
    · intro hlt; omega
    · intro hlt; omega

/-- The result of `CalculateAge` is never negative. -/
theorem calculateAge_nonneg (now dob : Time) : 0 ≤ CalculateAge now dob := by
  unfold CalculateAge
  simp only
  split_ifs <;> omega

/-! ## Age calculation -/

/-- C1: for every date of birth and every current date, `CalculateAge` returns
`max 0 (currentYear - birthYear - d)`, where `d` is 1 if the current day of the
year is strictly less than the day of the year of birth and 0 otherwise. -/
theorem calculateAge_eq_max (now dob : Time) :
    CalculateAge now dob
      = max 0 (now.Year - dob.Year - (if now.YearDay < dob.YearDay then 1 else 0)) := by
  unfold CalculateAge
  simp only
  split_ifs <;> omega

/-- C2: `CalculateAge` never returns a negative number, and for a date of birth
strictly after the current date, in the current year or in a later one, it
returns exactly 0. -/
theorem calculateAge_nonneg_and_future_zero (now dob : Time) :
    0 ≤ CalculateAge now dob ∧
      (now.Valid → dob.Valid → dob.After now → CalculateAge now dob = 0) := by
  refine ⟨calculateAge_nonneg now dob, ?_⟩
  intro hn hd hafter
  unfold Time.After at hafter
  unfold CalculateAge Time.Year
  simp only
  rcases hafter with hy | ⟨hy, hmd⟩
  · split_ifs <;> omega
  · have hlt : now.YearDay < dob.YearDay :=
      (yearDay_lt_iff_monthDayBefore now dob hn hd (by rw [hy])).2 hmd
    rw [if_pos hlt]
    split_ifs <;> omega

/-- Witness for C2: a birth date later in the current year. -/
theorem calculateAge_nonneg_and_future_zero_witness :
    (0 ≤ CalculateAge ⟨2026, 11, 4⟩ ⟨2026, 12, 25⟩) ∧
      CalculateAge ⟨2026, 11, 4⟩ ⟨2026, 12, 25⟩ = 0 :=
  ⟨(calculateAge_nonneg_and_future_zero ⟨2026, 11, 4⟩ ⟨2026, 12, 25⟩).1,
   (calculateAge_nonneg_and_future_zero ⟨2026, 11, 4⟩ ⟨2026, 12, 25⟩).2
     (by decide) (by decide) (by decide)⟩

/-- C3: the code departs from the age in completed calendar years.  On
2026-11-04 a person born on 2016-11-04 (same month and day, ten years earlier)
is given 9 and not 10; on 2024-02-29 a person born on 2003-03-01, whose
twenty-first birthday is the next day, is given 21 and not 20. -/
theorem calculateAge_ne_completedYears :
    ((⟨2026, 11, 4⟩ : Time).Valid ∧ (⟨2016, 11, 4⟩ : Time).Valid ∧
      ¬ (⟨2016, 11, 4⟩ : Time).After ⟨2026, 11, 4⟩ ∧
      completedYears ⟨2026, 11, 4⟩ ⟨2016, 11, 4⟩ = 10 ∧
      CalculateAge ⟨2026, 11, 4⟩ ⟨2016, 11, 4⟩ = 9) ∧
    ((⟨2024, 2, 29⟩ : Time).Valid ∧ (⟨2003, 3, 1⟩ : Time).Valid ∧
      ¬ (⟨2003, 3, 1⟩ : Time).After ⟨2024, 2, 29⟩ ∧
      (⟨2024, 2, 29⟩ : Time).nextDay = ⟨2024, 3, 1⟩ ∧
      completedYears ⟨2024, 2, 29⟩ ⟨2003, 3, 1⟩ = 20 ∧
      CalculateAge ⟨2024, 2, 29⟩ ⟨2003, 3, 1⟩ = 21) := by
  decide

/-! ## Machine arithmetic -/

/-- A value in the signed 64-bit range is left unchanged by `wrap64`. -/
theorem wrap64_eq_self (x : Int) (hlo : minInt ≤ x) (hhi : x ≤ maxInt) : wrap64 x = x := by
  unfold minInt at hlo
  unfold maxInt at hhi
  unfold wrap64
  omega

/-- Every result of `wrap64` is a 64-bit signed value. -/
theorem wrap64_isInt64 (x : Int) : IsInt64 (wrap64 x) := by
  unfold IsInt64 minInt maxInt wrap64
  omega

/-! ## Pagination: normalization -/

/-- The normalized page is at least 1 and the normalized page size lies in
`[1, 100]`. -/
theorem normalize_bounds (page pageSize : Int) :
    1 ≤ (normalize page pageSize).1 ∧ 1 ≤ (normalize page pageSize).2 ∧
      (normalize page pageSize).2 ≤ 100 := by
  unfold normalize
  simp only
  split_ifs <;> omega

/-- A successful `ListUsers` is assembled from the repository's answers and the
normalized parameters. -/
theorem listUsers_ok_iff (now : Time) (repo : UserRepository) (page pageSize : Int)
    (resp : PaginatedUsersResponse) :
    userService.ListUsers now repo page pageSize = .ok resp ↔
      ∃ allUsers total users tp,
        repo.ListUsers = .ok allUsers ∧ repo.CountUsers = .ok total ∧
        sliceExpr allUsers
          (sliceBounds (normalize page pageSize).1 (normalize page pageSize).2 allUsers.length).1
          (sliceBounds (normalize page pageSize).1 (normalize page pageSize).2 allUsers.length).2
            = some users ∧
        totalPages total (normalize page pageSize).2 = some tp ∧
        resp = { Users := users.map (toUserWithAgeResponse now)
                 Total := total
                 Page := (normalize page pageSize).1
                 PageSize := (normalize page pageSize).2
                 TotalPages := tp } := by
  unfold userService.ListUsers
  simp only
  cases hl : repo.ListUsers with
  | error e => simp
  | ok allUsers =>
    cases hc : repo.CountUsers with
    | error e => simp
    | ok total =>
      simp only
      cases hs : sliceExpr allUsers
          (sliceBounds (normalize page pageSize).1 (normalize page pageSize).2 allUsers.length).1
          (sliceBounds (normalize page pageSize).1 (normalize page pageSize).2 allUsers.length).2 with
      | none => simp [hs]
      | some users =>
        cases ht : totalPages total (normalize page pageSize).2 with
        | none => simp [hs, ht]
        | some tp =>
          simp only [hs, ht, Outcome.ok.injEq, Except.ok.injEq, Option.some.injEq]
          constructor
          · intro h
            exact ⟨allUsers, total, users, tp, rfl, rfl, hs, ht, h.symm⟩
          · rintro ⟨a, t, u, q, rfl, rfl, hu, hq, h⟩
            rw [hs] at hu
            rw [ht] at hq
            cases hu
            cases hq
            exact h.symm

/-- C4: the `Page` and `PageSize` that `ListUsers` uses and reports on success
are the normalized ones: `Page` is 1 if `page < 1` and `page` otherwise;
`PageSize` is 10 if `pageSize < 1`, 100 if `pageSize > 100`, and `pageSize`
otherwise.  Normalization is the identity for `page ≥ 1` and `pageSize` in
`[1, 100]`, and the reported values satisfy `Page ≥ 1` and
`1 ≤ PageSize ≤ 100`.  The slice bounds and the page count are computed from
the reported values. -/
theorem listUsers_page_normalized (now : Time) (repo : UserRepository) (page pageSize : Int)
    (resp : PaginatedUsersResponse)
    (h : userService.ListUsers now repo page pageSize = .ok resp) :
    resp.Page = (if page < 1 then 1 else page) ∧
    resp.PageSize = (if pageSize < 1 then 10 else if pageSize > 100 then 100 else pageSize) ∧
    (1 ≤ page → 1 ≤ pageSize → pageSize ≤ 100 →
      resp.Page = page ∧ resp.PageSize = pageSize) ∧
    (1 ≤ resp.Page ∧ 1 ≤ resp.PageSize ∧ resp.PageSize ≤ 100) ∧
    (∃ allUsers total users,
      repo.ListUsers = .ok allUsers ∧ repo.CountUsers = .ok total ∧
      sliceExpr allUsers (sliceBounds resp.Page resp.PageSize allUsers.length).1
        (sliceBounds resp.Page resp.PageSize allUsers.length).2 = some users ∧
      resp.Users = users.map (toUserWithAgeResponse now) ∧
      totalPages total resp.PageSize = some resp.TotalPages) := by
  obtain ⟨allUsers, total, users, tp, hl, hc, hs, ht, rfl⟩ :=
    (listUsers_ok_iff now repo page pageSize resp).1 h
  have hb := normalize_bounds page pageSize
  have hp : (normalize page pageSize).1 = (if page < 1 then 1 else page) := rfl
  have hq : (normalize page pageSize).2
      = (if pageSize < 1 then 10 else if pageSize > 100 then 100 else pageSize) := by
    unfold normalize
    simp only
    split_ifs <;> omega
  refine ⟨hp, hq, ?_, hb, allUsers, total, users, hl, hc, hs, rfl, ht⟩
  intro h1 h2 h3
  simp only
  rw [hp, hq]
  constructor
  · rw [if_neg (by omega)]
  · rw [if_neg (by omega), if_neg (by omega)]

/-- Witness for C4: page 0 and page size 500 over one stored user. -/
theorem listUsers_page_normalized_witness :
    (PaginatedUsersResponse.mk [⟨1, "Ada", "2000-01-01", 26⟩] 1 1 100 1).Page = 1 ∧
    (PaginatedUsersResponse.mk [⟨1, "Ada", "2000-01-01", 26⟩] 1 1 100 1).PageSize = 100 :=
  have h := listUsers_page_normalized ⟨2026, 11, 4⟩
    ⟨.ok [⟨1, "Ada", ⟨2000, 1, 1⟩⟩], .ok 1⟩ 0 500
    ⟨[⟨1, "Ada", "2000-01-01", 26⟩], 1, 1, 100, 1⟩ (by decide)
  ⟨h.1, h.2.1⟩

/-! ## Pagination: page count -/

/-- For a non-negative 64-bit count and a page size in `[1, 100]` the page count
is the ceiling of the quotient, and no division by zero occurs. -/
theorem totalPages_eq_ceil (total pageSize : Int) (h0 : 0 ≤ total) (hmax : total ≤ maxInt)
    (hs1 : 1 ≤ pageSize) :
    totalPages total pageSize = some ⌈(total : ℚ) / (pageSize : ℚ)⌉ := by
  have hspos : (0 : Int) < pageSize := by omega
  have hsq : (0 : ℚ) < (pageSize : ℚ) := by exact_mod_cast hspos
  have hdm := Int.ediv_add_emod total pageSize
  have hr0 := Int.emod_nonneg total (show pageSize ≠ 0 by omega)
  have hr1 := Int.emod_lt_of_pos total hspos
  have hq0 : 0 ≤ total / pageSize := Int.ediv_nonneg h0 (by omega)
  have hqle : total / pageSize ≤ pageSize * (total / pageSize) := by nlinarith
  unfold totalPages
  rw [if_neg (by omega), Int.tdiv_eq_ediv h0 (by omega), Int.tmod_eq_emod h0 (by omega)]
  simp only
  have hw : wrap64 (total / pageSize) = total / pageSize :=
    wrap64_eq_self _ (by unfold minInt; omega) (by omega)
  rw [hw]
  congr 1
  by_cases hr : total % pageSize > 0
  · rw [if_pos hr]
    have h2 : 2 * (total / pageSize) ≤ pageSize * (total / pageSize) := by nlinarith
    have hw1 : wrap64 (total / pageSize + 1) = total / pageSize + 1 :=
      wrap64_eq_self _ (by unfold minInt; omega) (by unfold maxInt at *; omega)
    rw [hw1]
    symm
    rw [Int.ceil_eq_iff]
    constructor
    · rw [lt_div_iff₀ hsq]
      have : (total / pageSize + 1 - 1) * pageSize < total := by nlinarith
      exact_mod_cast this
    · rw [div_le_iff₀ hsq]
      have : total ≤ (total / pageSize + 1) * pageSize := by nlinarith
      exact_mod_cast this
  · rw [if_neg hr]
    have hr' : total % pageSize = 0 := by omega
    symm
    rw [Int.ceil_eq_iff]
    constructor
    · rw [lt_div_iff₀ hsq]
      have : (total / pageSize - 1) * pageSize < total := by nlinarith
      exact_mod_cast this
    · rw [div_le_iff₀ hsq]
      have : total ≤ (total / pageSize) * pageSize := by nlinarith
      exact_mod_cast this

/-- C5: for every store count `total ≥ 0` and every requested page size, the
`TotalPages` reported by `ListUsers` equals `ceil(total / p)` where `p` is the
normalized page size; `p ≥ 1`, so no division by zero occurs.  With `total = 25`
and page size 10 it is 3, and with `total = 0` it is 0. -/
theorem listUsers_totalPages_eq_ceil (now : Time) (repo : UserRepository)
    (page pageSize total : Int) (resp : PaginatedUsersResponse)
    (hc : repo.CountUsers = .ok total) (h0 : 0 ≤ total) (hmax : total ≤ maxInt)
    (h : userService.ListUsers now repo page pageSize = .ok resp) :
    1 ≤ (normalize page pageSize).2 ∧
    totalPages total (normalize page pageSize).2 ≠ none ∧
    resp.TotalPages = ⌈(total : ℚ) / ((normalize page pageSize).2 : ℚ)⌉ ∧
    (total = 25 → pageSize = 10 → resp.TotalPages = 3) ∧
    (total = 0 → resp.TotalPages = 0) := by
  obtain ⟨allUsers, total', users, tp, hl, hc', hs, ht, rfl⟩ :=
    (listUsers_ok_iff now repo page pageSize resp).1 h
  rw [hc] at hc'
  cases hc'
  have hb := normalize_bounds page pageSize
  have hceil := totalPages_eq_ceil total (normalize page pageSize).2 h0 hmax hb.2.1
  rw [ht] at hceil
  cases hceil
  refine ⟨hb.2.1, by rw [ht]; simp, rfl, ?_, ?_⟩
  · rintro rfl rfl
    simp only
    have : (normalize page 10).2 = 10 := rfl
    rw [this, Int.ceil_eq_iff]
    norm_num
  · rintro rfl
    simp

/-- Witness for C5: a count of 25 with page size 10. -/
theorem listUsers_totalPages_eq_ceil_witness :
    (PaginatedUsersResponse.mk [] 25 1 10 3).TotalPages
      = ⌈((25 : Int) : ℚ) / ((normalize 1 10).2 : ℚ)⌉ :=
  (listUsers_totalPages_eq_ceil ⟨2026, 11, 4⟩ ⟨.ok [], .ok 25⟩ 1 10 25
    ⟨[], 25, 1, 10, 3⟩ rfl (by decide) (by decide) (by decide)).2.2.1

/-! ## Pagination: slice bounds and page contents -/

/-- When `(page - 1) * pageSize` does not overflow, the bounds are the product
and the product plus the page size, each clamped to the length. -/
theorem sliceBounds_of_no_overflow (page pageSize : Int) (a s len : Nat)
    (hp : 1 ≤ page) (hs : pageSize = (s : Int)) (hs100 : s ≤ 100)
    (ha : (page - 1) * pageSize = (a : Int)) (hamax : (a : Int) ≤ maxInt)
    (hlen : (len : Int) + 100 ≤ maxInt) (hs1 : 1 ≤ s) :
    sliceBounds page pageSize len
      = (((min a len : Nat) : Int), ((min (min a len + s) len : Nat) : Int)) := by
  have hp1 : page - 1 ≤ (page - 1) * pageSize := by
    have : (1 : Int) ≤ pageSize := by omega
    nlinarith
  have hw1 : wrap64 (page - 1) = page - 1 :=
    wrap64_eq_self _ (by unfold minInt; omega) (by omega)
  have hw2 : wrap64 ((a : Int)) = a :=
    wrap64_eq_self _ (by unfold minInt; omega) hamax
  unfold sliceBounds
  simp only
  rw [hw1, ha, hw2]
  have hstart : (if (a : Int) > (len : Int) then (len : Int) else (a : Int))
      = ((min a len : Nat) : Int) := by
    split_ifs <;> omega
  rw [hstart]
  have hw3 : wrap64 (((min a len : Nat) : Int) + pageSize) = ((min a len + s : Nat) : Int) :=
    by
      rw [hs]
      push_cast
      exact wrap64_eq_self _ (by unfold minInt; omega) (by unfold maxInt at *; omega)
  rw [hw3]
  have hend : (if ((min a len + s : Nat) : Int) > (len : Int) then (len : Int)
      else ((min a len + s : Nat) : Int)) = ((min (min a len + s) len : Nat) : Int) := by
    split_ifs <;> omega
  rw [hend]

/-- Bounds within the list select the sub-list between them. -/
theorem sliceExpr_natCast {α : Type} (xs : List α) (lo hi : Nat) (h1 : lo ≤ hi)
    (h2 : hi ≤ xs.length) :
    sliceExpr xs (lo : Int) (hi : Int) = some ((xs.drop lo).take (hi - lo)) := by
  unfold sliceExpr
  rw [if_pos ⟨by omega, by omega, by omega⟩]
  simp

/-- Elements of the clamped window `[a, min (a + s) len)` of a list. -/
theorem window_getElem? {α : Type} (xs : List α) (a s i : Nat) :
    ((xs.drop (min a xs.length)).take
        (min (min a xs.length + s) xs.length - min a xs.length))[i]?
      = if a + i < min (a + s) xs.length then xs[a + i]? else none := by
  rw [List.getElem?_take, List.getElem?_drop]
  by_cases h : a + i < min (a + s) xs.length
  · rw [if_pos h, if_pos (by omega)]
    congr 1
    omega
  · rw [if_neg h, if_neg (by omega)]

/-- Without overflow and with both repository calls succeeding, `ListUsers`
succeeds and returns the clamped window of the listing. -/
theorem listUsers_of_no_overflow (now : Time) (repo : UserRepository) (L : List User)
    (total page pageSize : Int) (a : Nat)
    (hl : repo.ListUsers = .ok L) (hc : repo.CountUsers = .ok total)
    (hlen : (L.length : Int) + 100 ≤ maxInt)
    (ha : ((normalize page pageSize).1 - 1) * (normalize page pageSize).2 = (a : Int))
    (hamax : (a : Int) ≤ maxInt) :
    ∃ tp, totalPages total (normalize page pageSize).2 = some tp ∧
      userService.ListUsers now repo page pageSize = .ok
        { Users := ((L.drop (min a L.length)).take
              (min (min a L.length + (normalize page pageSize).2.toNat) L.length
                - min a L.length)).map (toUserWithAgeResponse now)
          Total := total
          Page := (normalize page pageSize).1
          PageSize := (normalize page pageSize).2
          TotalPages := tp } := by
  obtain ⟨hb1, hb2, hb3⟩ := normalize_bounds page pageSize
  have hs : (normalize page pageSize).2 = (((normalize page pageSize).2.toNat : Nat) : Int) :=
    (Int.toNat_of_nonneg (by omega)).symm
  have hbounds := sliceBounds_of_no_overflow (normalize page pageSize).1
    (normalize page pageSize).2 a (normalize page pageSize).2.toNat L.length
    hb1 hs (by omega) ha hamax hlen (by omega)
  have htp : ∃ tp, totalPages total (normalize page pageSize).2 = some tp := by
    unfold totalPages
    rw [if_neg (by omega)]
    exact ⟨_, rfl⟩
  obtain ⟨tp, htp⟩ := htp
  refine ⟨tp, htp, ?_⟩
  rw [listUsers_ok_iff]
  refine ⟨L, total, _, tp, hl, hc, ?_, htp, rfl⟩
  rw [hbounds]
  exact sliceExpr_natCast L _ _ (by omega) (by omega)

/-- C6: for every store listing `L` and every normalized page `p ≥ 1` and page
size `s` with `(p - 1) * s` not overflowing, `ListUsers` succeeds and returns as
`Users` exactly the records of `L` at zero-based positions `(p - 1) * s` up to
but excluding `min ((p - 1) * s + s) (len L)`, in the order of `L`, each
converted by `toUserWithAgeResponse`, and `Total` equal to the store's count.
With page 2 and page size 5 over 12 users it returns records 6 to 10, total 12
and 3 pages.  The listing is a Go slice of multi-byte records, so its length is
at least 100 below the largest `int`. -/
theorem listUsers_returns_window (now : Time) (repo : UserRepository) (L : List User)
    (total page pageSize : Int) (p s : Nat)
    (hl : repo.ListUsers = .ok L) (hc : repo.CountUsers = .ok total)
    (hlen : (L.length : Int) + 100 ≤ maxInt)
    (hn : normalize page pageSize = ((p : Int), (s : Int)))
    (hno : (((p - 1) * s : Nat) : Int) ≤ maxInt) :
    ∃ resp, userService.ListUsers now repo page pageSize = .ok resp ∧
      resp.Total = total ∧ resp.Page = p ∧ resp.PageSize = s ∧
      resp.Users.length = min ((p - 1) * s + s) L.length - (p - 1) * s ∧
      (∀ i : Nat, resp.Users[i]? =
        if (p - 1) * s + i < min ((p - 1) * s + s) L.length
        then (L[(p - 1) * s + i]?).map (toUserWithAgeResponse now) else none) ∧
      (L.length = 12 → total = 12 → page = 2 → pageSize = 5 →
        resp.Users = ((L.drop 5).take 5).map (toUserWithAgeResponse now) ∧
        resp.Total = 12 ∧ resp.TotalPages = 3) := by
  obtain ⟨hb1, hb2, hb3⟩ := normalize_bounds page pageSize
  have hn1 : (normalize page pageSize).1 = (p : Int) := by rw [hn]
  have hn2 : (normalize page pageSize).2 = (s : Int) := by rw [hn]
  rw [hn1] at hb1
  rw [hn2] at hb2 hb3
  have hp : 1 ≤ p := by omega
  have ha : ((normalize page pageSize).1 - 1) * (normalize page pageSize).2
      = (((p - 1) * s : Nat) : Int) := by
    rw [hn1, hn2]
    push_cast [Nat.cast_sub hp]
    ring
  obtain ⟨tp, htp, hok⟩ :=
    listUsers_of_no_overflow now repo L total page pageSize ((p - 1) * s) hl hc hlen ha hno
  rw [hn1, hn2] at hok
  rw [hn2] at htp
  simp only [Int.toNat_ofNat] at hok
  refine ⟨_, hok, rfl, rfl, rfl, ?_, ?_, ?_⟩
  · simp only [List.length_map, List.length_take, List.length_drop]
    omega
  · intro i
    simp only [List.getElem?_map]
    rw [window_getElem?]
    split_ifs <;> rfl
  · rintro h12 rfl rfl rfl
    have hp2 : p = 2 := by
      have : (normalize 2 5).1 = 2 := rfl
      omega
    have hs5 : s = 5 := by
      have : (normalize 2 5).2 = 5 := rfl
      omega
    subst hp2 hs5
    refine ⟨?_, rfl, ?_⟩
    · simp [h12]
    · have : totalPages 12 ((5 : Nat) : Int) = some 3 := by decide
      rw [this] at htp
      cases htp
      rfl

/-- Witness for C6: page 2 of size 5 over twelve stored users. -/
theorem listUsers_returns_window_witness :
    ∃ resp, userService.ListUsers ⟨2026, 11, 4⟩
        ⟨.ok ((List.range 12).map (fun i => ⟨i + 1, "user", ⟨2000, 1, 1⟩⟩)), .ok 12⟩ 2 5
          = .ok resp ∧
      resp.Users.map (fun u => u.ID) = [6, 7, 8, 9, 10] ∧
      resp.Total = 12 ∧ resp.TotalPages = 3 := by
  obtain ⟨resp, hok, _, _, _, _, _, hex⟩ :=
    listUsers_returns_window ⟨2026, 11, 4⟩
      ⟨.ok ((List.range 12).map (fun i => ⟨i + 1, "user", ⟨2000, 1, 1⟩⟩)), .ok 12⟩
      ((List.range 12).map (fun i => ⟨i + 1, "user", ⟨2000, 1, 1⟩⟩)) 12 2 5 2 5
      rfl rfl (by decide) (by decide) (by decide)
  obtain ⟨hu, ht, htp⟩ := hex (by decide) rfl rfl rfl
  refine ⟨resp, hok, ?_, ht, htp⟩
  rw [hu]
  decide

/-- C7: the slice bounds are not always within the collection.  For the request
`?page=9223372036854775807` (page size defaulted to 10) the product
`(page - 1) * pageSize` wraps to -20, so `start = -20` and `end = -10`, neither
clamp applies, and the slice expression panics. -/
theorem listUsers_slice_bounds_escape :
    Atoi "9223372036854775807" = (9223372036854775807, none) ∧
    normalize 9223372036854775807 10 = (9223372036854775807, 10) ∧
    sliceBounds 9223372036854775807 10 0 = (-20, -10) ∧
    sliceExpr ([] : List User) (-20) (-10) = none ∧
    userService.ListUsers ⟨2026, 11, 4⟩ ⟨.ok [], .ok 0⟩ 9223372036854775807 10
      = .panic "slice bounds out of range" ∧
    UserHandler.ListUsers
      { CreateUser := fun _ => .error "unused"
        GetUserByID := fun _ => .error "unused"
        ListUsers := userService.ListUsers ⟨2026, 11, 4⟩ ⟨.ok [], .ok 0⟩
        UpdateUser := fun _ _ => .error "unused"
        DeleteUser := fun _ => .error "unused" }
      { Params := fun _ => ""
        Query := fun key => if key = "page" then "9223372036854775807" else ""
        BodyParserCreate := .error "no body"
        BodyParserUpdate := .error "no body"
        ValidateCreate := fun _ => none
        ValidateUpdate := fun _ => none }
      = ⟨.panicked "slice bounds out of range", [.ListUsers 9223372036854775807 10]⟩ := by
  decide

/-- The clamped window starting at `a` is the first `s` elements after
dropping `a`. -/
theorem window_eq_take_drop {α : Type} (xs : List α) (a s : Nat) :
    (xs.drop (min a xs.length)).take (min (min a xs.length + s) xs.length - min a xs.length)
      = (xs.drop a).take s := by
  rcases Nat.lt_or_ge xs.length a with h | h
  · rw [List.drop_eq_nil_of_le (show xs.length ≤ min a xs.length by omega),
      List.drop_eq_nil_of_le (show xs.length ≤ a by omega)]
    simp
  · rw [Nat.min_eq_left h, List.take_eq_take, List.length_drop]
    omega

/-- Page `k + 1` of `ListUsers`, when `k * s` does not overflow: the `s` records
that follow the first `k * s`. -/
theorem listUsers_page_succ (now : Time) (repo : UserRepository) (L : List User)
    (total pageSize : Int) (s k : Nat)
    (hl : repo.ListUsers = .ok L) (hc : repo.CountUsers = .ok total)
    (hlen : (L.length : Int) + 100 ≤ maxInt)
    (hs : (normalize 1 pageSize).2 = (s : Int))
    (hk : ((k * s : Nat) : Int) ≤ maxInt) :
    ∃ tp, totalPages total (s : Int) = some tp ∧
      userService.ListUsers now repo ((k : Int) + 1) pageSize = .ok
        { Users := ((L.drop (k * s)).take s).map (toUserWithAgeResponse now)
          Total := total
          Page := (k : Int) + 1
          PageSize := (s : Int)
          TotalPages := tp } := by
  have hn1 : (normalize ((k : Int) + 1) pageSize).1 = (k : Int) + 1 := by
    show (if (k : Int) + 1 < 1 then 1 else (k : Int) + 1) = (k : Int) + 1
    rw [if_neg (by omega)]
  have hn2 : (normalize ((k : Int) + 1) pageSize).2 = (s : Int) := hs
  have ha : ((normalize ((k : Int) + 1) pageSize).1 - 1) * (normalize ((k : Int) + 1) pageSize).2
      = ((k * s : Nat) : Int) := by
    rw [hn1, hn2]
    push_cast
    ring
  obtain ⟨tp, htp, hok⟩ :=
    listUsers_of_no_overflow now repo L total ((k : Int) + 1) pageSize (k * s) hl hc hlen ha hk
  rw [hn1, hn2] at hok
  rw [hn2] at htp
  simp only [Int.toNat_ofNat] at hok
  rw [window_eq_take_drop] at hok
  exact ⟨tp, htp, hok⟩

/-- Consecutive chunks of `s` elements, `n` of them, make up the first `n * s`
elements of the list. -/
theorem flatten_chunks {α : Type} (xs : List α) (s n : Nat) :
    ((List.range n).map (fun k => (xs.drop (k * s)).take s)).flatten = xs.take (n * s) := by
  induction n with
  | zero => simp
  | succ n ih =>
    rw [List.range_succ, List.map_append, List.flatten_append, ih]
    simp only [List.map_cons, List.map_nil, List.flatten_cons, List.flatten_nil,
      List.append_nil]
    rw [Nat.succ_mul, List.take_add]

/-- The page count brackets the total: `(tp - 1) * s < total ≤ tp * s`. -/
theorem totalPages_bracket (len s : Nat) (hs1 : 1 ≤ s) (hmax : (len : Int) ≤ maxInt) :
    ∃ tp : Nat, totalPages (len : Int) (s : Int) = some (tp : Int) ∧
      len ≤ tp * s ∧ tp * s < len + s := by
  have hceil := totalPages_eq_ceil (len : Int) (s : Int) (by omega) hmax (by omega)
  have hsq : (0 : ℚ) < ((s : Int) : ℚ) := by exact_mod_cast hs1
  obtain ⟨h1, h2⟩ := (Int.ceil_eq_iff (z := ⌈((len : Int) : ℚ) / ((s : Int) : ℚ)⌉)).1 rfl
  rw [lt_div_iff₀ hsq] at h1
  rw [div_le_iff₀ hsq] at h2
  have h1' : (⌈((len : Int) : ℚ) / ((s : Int) : ℚ)⌉ - 1) * (s : Int) < (len : Int) := by
    exact_mod_cast h1
  have h2' : (len : Int) ≤ ⌈((len : Int) : ℚ) / ((s : Int) : ℚ)⌉ * (s : Int) := by
    exact_mod_cast h2
  have hc0 : 0 ≤ ⌈((len : Int) : ℚ) / ((s : Int) : ℚ)⌉ := by
    by_contra hneg
    have : ⌈((len : Int) : ℚ) / ((s : Int) : ℚ)⌉ * (s : Int) < 0 := by
      have hs' : (1 : Int) ≤ (s : Int) := by omega
      nlinarith
    omega
  obtain ⟨tp, htp⟩ := Int.eq_ofNat_of_zero_le hc0
  rw [htp] at hceil h1' h2'
  refine ⟨tp, hceil, ?_, ?_⟩
  · have : ((len : Nat) : Int) ≤ ((tp * s : Nat) : Int) := by
      push_cast
      exact h2'
    exact_mod_cast this
  · have : ((tp * s : Nat) : Int) < ((len + s : Nat) : Int) := by
      push_cast
      linarith
    exact_mod_cast this

/-- When no offset overflows, the pages of `ListUsers` partition the listing:
pages `1, …, TotalPages` are non-empty, hold at most `s` records and concatenate
to the whole converted listing, and every later page is empty. -/
theorem listUsers_pages_partition (now : Time) (repo : UserRepository) (L : List User)
    (pageSize : Int) (s : Nat)
    (hl : repo.ListUsers = .ok L) (hc : repo.CountUsers = .ok (L.length : Int))
    (hlen : (L.length : Int) + 100 ≤ maxInt)
    (hs : (normalize 1 pageSize).2 = (s : Int)) :
    ∃ tp : Nat,
      (∀ k : Nat, k < tp →
        userService.ListUsers now repo ((k : Int) + 1) pageSize = .ok
          { Users := ((L.drop (k * s)).take s).map (toUserWithAgeResponse now)
            Total := (L.length : Int)
            Page := (k : Int) + 1
            PageSize := (s : Int)
            TotalPages := (tp : Int) } ∧
        ((L.drop (k * s)).take s).map (toUserWithAgeResponse now) ≠ [] ∧
        (((L.drop (k * s)).take s).map (toUserWithAgeResponse now)).length ≤ s) ∧
      ((List.range tp).map
          (fun k => ((L.drop (k * s)).take s).map (toUserWithAgeResponse now))).flatten
        = L.map (toUserWithAgeResponse now) ∧
      (∀ k : Nat, tp ≤ k → ((k * s : Nat) : Int) ≤ maxInt →
        userService.ListUsers now repo ((k : Int) + 1) pageSize = .ok
          { Users := []
            Total := (L.length : Int)
            Page := (k : Int) + 1
            PageSize := (s : Int)
            TotalPages := (tp : Int) }) := by
  obtain ⟨_, hb2, hb3⟩ := normalize_bounds 1 pageSize
  rw [hs] at hb2 hb3
  have hs1 : 1 ≤ s := by omega
  obtain ⟨tp, htp, hle, hlt⟩ := totalPages_bracket L.length s hs1 (by omega)
  refine ⟨tp, ?_, ?_, ?_⟩
  · intro k hk
    have hks : k * s + s ≤ tp * s := by
      have : (k + 1) * s ≤ tp * s := Nat.mul_le_mul_right s hk
      rw [Nat.succ_mul] at this
      exact this
    have hklen : k * s < L.length := by omega
    obtain ⟨tp', htp', hok⟩ := listUsers_page_succ now repo L (L.length : Int) pageSize s k
      hl hc hlen hs (by unfold maxInt at *; omega)
    rw [htp] at htp'
    cases htp'
    refine ⟨hok, ?_, ?_⟩
    · intro hnil
      have hlen0 := congrArg List.length hnil
      simp only [List.length_map, List.length_take, List.length_drop, List.length_nil] at hlen0
      omega
    · simp only [List.length_map, List.length_take, List.length_drop]
      omega
  · have hmap : (fun k => ((L.drop (k * s)).take s).map (toUserWithAgeResponse now))
        = (List.map (toUserWithAgeResponse now)) ∘ (fun k => (L.drop (k * s)).take s) := rfl
    rw [hmap, ← List.map_map, ← List.map_flatten, flatten_chunks,
      List.take_of_length_le hle]
  · intro k hk hkmax
    have hks : tp * s ≤ k * s := Nat.mul_le_mul_right s hk
    obtain ⟨tp', htp', hok⟩ := listUsers_page_succ now repo L (L.length : Int) pageSize s k
      hl hc hlen hs hkmax
    rw [htp] at htp'
    cases htp'
    rw [List.drop_eq_nil_of_le (show L.length ≤ k * s by omega), List.take_nil,
      List.map_nil] at hok
    exact hok

/-- C10: a page beyond `TotalPages` is not always empty.  With one stored user
and page size 100, page `2^62 + 1` has `(page - 1) * pageSize` wrapping to 0, so
`ListUsers` returns the first page again although `TotalPages` is 1. -/
theorem listUsers_page_beyond_total_nonempty :
    userService.ListUsers ⟨2026, 11, 4⟩ ⟨.ok [⟨1, "Ada", ⟨2000, 1, 1⟩⟩], .ok 1⟩
        4611686018427387905 100
      = .ok { Users := [⟨1, "Ada", "2000-01-01", 26⟩]
              Total := 1
              Page := 4611686018427387905
              PageSize := 100
              TotalPages := 1 } ∧
    sliceBounds 4611686018427387905 100 1 = (0, 1) ∧
    Atoi "4611686018427387905" = (4611686018427387905, none) := by
  decide

/-! ## HTTP mapping -/

/-- A successful 32-bit `ParseInt` yields a value that `int32(id)` leaves
unchanged. -/
theorem toInt32_parseInt (s : String) (id : Int) (h : ParseInt s 32 = (id, none)) :
    toInt32 id = id := by
  unfold ParseInt at h
  split at h
  · simp at h
  · rename_i c rest _
    simp only at h
    split at h
    · simp at h
    · rename_i un e _
      split_ifs at h with h1 h2 h3
      · simp at h
      · simp at h
      · simp only [Prod.mk.injEq, and_true] at h
        subst h
        simp only [Bool.and_eq_true, Bool.not_eq_true, decide_eq_true_eq, not_and,
          Bool.not_eq_eq_eq_not, Bool.not_true, Bool.not_eq_false'] at h1 h2
        have := h2 h3
        unfold toInt32
        norm_num at this
        omega
      · simp only [Prod.mk.injEq, and_true] at h
        subst h
        simp only [Bool.and_eq_true, Bool.not_eq_true, decide_eq_true_eq, not_and,
          Bool.not_eq_eq_eq_not, Bool.not_true, Bool.not_eq_false'] at h1 h2
        have hneg : (c == '-') = false := by simpa using h3
        have := h1 (by simp [hneg])
        unfold toInt32
        norm_num at this
        omega

/-- C8: in the `GetUserByID` handler, for every identifier that parses as a
32-bit integer, whenever the service returns any error the handler fails with
status 404 and the fixed message "User not found", which `ErrorHandler` renders
as status 404 with the body `error: true, msg: "User not found"`; an identifier
that does not parse yields status 400 and the service is not called. -/
theorem getUserByID_error_mapping (service : UserService) (c : Ctx) :
    (∀ id msg, ParseInt (c.Params "id") 32 = (id, none) →
      service.GetUserByID id = .error msg →
        toInt32 id = id ∧
        UserHandler.GetUserByID service c
          = ⟨.failed ⟨404, "User not found"⟩, [.GetUserByID id]⟩ ∧
        ErrorHandler (.fiber ⟨404, "User not found"⟩)
          = ⟨404, .map [("error", .bool true), ("msg", .str "User not found")]⟩) ∧
    (∀ v e, ParseInt (c.Params "id") 32 = (v, some e) →
      ∃ m, UserHandler.GetUserByID service c = ⟨.failed ⟨400, m⟩, []⟩) := by
  constructor
  · intro id msg hid herr
    have h32 := toInt32_parseInt (c.Params "id") id hid
    refine ⟨h32, ?_, rfl⟩
    unfold UserHandler.GetUserByID
    simp only [hid, h32, herr]
    rfl
  · intro v e hid
    unfold UserHandler.GetUserByID
    simp only [hid]
    exact ⟨_, rfl⟩

/-- Witness for C8: identifier 999999 with a service that finds no such row, and
an identifier that is not a number. -/
theorem getUserByID_error_mapping_witness :
    (UserHandler.GetUserByID
        { CreateUser := fun _ => .error "store unavailable"
          GetUserByID := fun _ => .error "no rows in result set"
          ListUsers := fun _ _ => .error "store unavailable"
          UpdateUser := fun _ _ => .error "store unavailable"
          DeleteUser := fun _ => .error "store unavailable" }
        { Params := fun _ => "999999"
          Query := fun _ => ""
          BodyParserCreate := .error "no body"
          BodyParserUpdate := .error "no body"
          ValidateCreate := fun _ => none
          ValidateUpdate := fun _ => none }
      = ⟨.failed ⟨404, "User not found"⟩, [.GetUserByID 999999]⟩) ∧
    ErrorHandler (.fiber ⟨404, "User not found"⟩)
      = ⟨404, .map [("error", .bool true), ("msg", .str "User not found")]⟩ :=
  ((getUserByID_error_mapping _ _).1 999999 "no rows in result set" (by decide) rfl).2

/-- C9: in the `CreateUser` and `UpdateUser` handlers, when body decoding or
request validation fails the handler returns status 400 and the service is never
invoked; when validation passes, a service error yields status 500 carrying the
error's message, and success yields 201 (create) or 200 (update) with the
service's response.  In `UpdateUser` the service is reached only if the path
identifier parses; otherwise the handler returns 400 without invoking it. -/
theorem create_update_status_mapping (service : UserService) (c : Ctx) :
    (∀ e, c.BodyParserCreate = .error e →
      ∃ m, UserHandler.CreateUser service c = ⟨.failed ⟨400, m⟩, []⟩) ∧
    (∀ req msg, c.BodyParserCreate = .ok req → c.ValidateCreate req = some msg →
      UserHandler.CreateUser service c = ⟨.failed ⟨400, msg⟩, []⟩) ∧
    (∀ req, c.BodyParserCreate = .ok req → c.ValidateCreate req = none →
      (∀ msg, service.CreateUser req = .error msg →
        UserHandler.CreateUser service c = ⟨.failed ⟨500, msg⟩, [.CreateUser req]⟩) ∧
      (∀ user, service.CreateUser req = .ok user →
        UserHandler.CreateUser service c = ⟨.sent ⟨201, .user user⟩, [.CreateUser req]⟩)) ∧
    (∀ e, c.BodyParserUpdate = .error e →
      ∃ m, UserHandler.UpdateUser service c = ⟨.failed ⟨400, m⟩, []⟩) ∧
    (∀ req msg, c.BodyParserUpdate = .ok req → c.ValidateUpdate req = some msg →
      ∃ m, UserHandler.UpdateUser service c = ⟨.failed ⟨400, m⟩, []⟩) ∧
    (∀ v e, ParseInt (c.Params "id") 32 = (v, some e) →
      ∃ m, UserHandler.UpdateUser service c = ⟨.failed ⟨400, m⟩, []⟩) ∧
    (∀ req id, c.BodyParserUpdate = .ok req → c.ValidateUpdate req = none →
      ParseInt (c.Params "id") 32 = (id, none) →
      (∀ msg, service.UpdateUser id req = .error msg →
        UserHandler.UpdateUser service c = ⟨.failed ⟨500, msg⟩, [.UpdateUser id req]⟩) ∧
      (∀ user, service.UpdateUser id req = .ok user →
        UserHandler.UpdateUser service c = ⟨.sent ⟨200, .user user⟩, [.UpdateUser id req]⟩)) := by
  refine ⟨?_, ?_, ?_, ?_, ?_, ?_, ?_⟩
  · intro e he
    unfold UserHandler.CreateUser
    simp only [he]
    exact ⟨_, rfl⟩
  · intro req msg hreq hval
    unfold UserHandler.CreateUser
    simp only [hreq, hval]
    rfl
  · intro req hreq hval
    constructor
    · intro msg herr
      unfold UserHandler.CreateUser
      simp only [hreq, hval, herr]
      rfl
    · intro user hok
      unfold UserHandler.CreateUser
      simp only [hreq, hval, hok]
      rfl
  · intro e he
    unfold UserHandler.UpdateUser
    simp only
    rcases hid : ParseInt (c.Params "id") 32 with ⟨v, _ | err⟩
    · simp only [he]
      exact ⟨_, rfl⟩
    · exact ⟨_, rfl⟩
  · intro req msg hreq hval
    unfold UserHandler.UpdateUser
    simp only
    rcases hid : ParseInt (c.Params "id") 32 with ⟨v, _ | err⟩
    · simp only [hreq, hval]
      exact ⟨_, rfl⟩
    · exact ⟨_, rfl⟩
  · intro v e hid
    unfold UserHandler.UpdateUser
    simp only [hid]
    exact ⟨_, rfl⟩
  · intro req id hreq hval hid
    have h32 := toInt32_parseInt (c.Params "id") id hid
    constructor
    · intro msg herr
      unfold UserHandler.UpdateUser
      simp only [hid, h32, hreq, hval, herr]
      rfl
    · intro user hok
      unfold UserHandler.UpdateUser
      simp only [hid, h32, hreq, hval, hok]
      rfl

/-- Witness for C9: a create request whose date fails validation, and an update
of user 7 that the store rejects. -/
theorem create_update_status_mapping_witness :
    (UserHandler.CreateUser
        { CreateUser := fun _ => .ok ⟨1, "Ada", "2021-02-30"⟩
          GetUserByID := fun _ => .error "no rows in result set"
          ListUsers := fun _ _ => .error "store unavailable"
          UpdateUser := fun _ _ => .error "no rows in result set"
          DeleteUser := fun _ => .error "store unavailable" }
        { Params := fun _ => "7"
          Query := fun _ => ""
          BodyParserCreate := .ok ⟨"Ada", "2021-02-30"⟩
          BodyParserUpdate := .ok ⟨"Ada", "2000-01-01"⟩
          ValidateCreate := fun req =>
            if req.Dob = "2021-02-30" then some "Dob failed on the datetime tag" else none
          ValidateUpdate := fun _ => none }
      = ⟨.failed ⟨400, "Dob failed on the datetime tag"⟩, []⟩) ∧
    (UserHandler.UpdateUser
        { CreateUser := fun _ => .ok ⟨1, "Ada", "2021-02-30"⟩
          GetUserByID := fun _ => .error "no rows in result set"
          ListUsers := fun _ _ => .error "store unavailable"
          UpdateUser := fun _ _ => .error "no rows in result set"
          DeleteUser := fun _ => .error "store unavailable" }
        { Params := fun _ => "7"
          Query := fun _ => ""
          BodyParserCreate := .ok ⟨"Ada", "2021-02-30"⟩
          BodyParserUpdate := .ok ⟨"Ada", "2000-01-01"⟩
          ValidateCreate := fun req =>
            if req.Dob = "2021-02-30" then some "Dob failed on the datetime tag" else none
          ValidateUpdate := fun _ => none }
      = ⟨.failed ⟨500, "no rows in result set"⟩, [.UpdateUser 7 ⟨"Ada", "2000-01-01"⟩]⟩) :=
  ⟨(create_update_status_mapping _ _).2.1 ⟨"Ada", "2021-02-30"⟩
      "Dob failed on the datetime tag" rfl (by decide),
   ((create_update_status_mapping _ _).2.2.2.2.2.2 ⟨"Ada", "2000-01-01"⟩ 7 rfl rfl
      (by decide)).1 "no rows in result set" rfl⟩

/-! ## Age calculation against completed calendar years -/

/-- For a date of birth not after the current date, the age in completed
calendar years is not negative. -/
theorem completedYears_nonneg (now dob : Time) (hna : ¬ dob.After now) :
    0 ≤ completedYears now dob := by
  unfold Time.After at hna
  unfold completedYears Time.MonthDayBefore
  push_neg at hna
  obtain ⟨hy, hmd⟩ := hna
  split_ifs with h
  · rcases lt_or_eq_of_le hy with hlt | heq
    · omega
    · have := hmd heq.symm
      rcases h with h | ⟨h1, h2⟩
      · omega
      · have := this.2 h1
        omega
  · omega

/-- C11: for every current date and every date of birth not after it, if the
birth year and the current year are both leap years or both non-leap years,
the day-of-year comparison in `CalculateAge` agrees with the month-and-day
comparison, so `CalculateAge` equals the age in completed calendar years; the
two results can differ only when exactly one of the two years is a leap year. -/
theorem calculateAge_eq_completedYears_of_same_leap (now dob : Time)
    (hn : now.Valid) (hd : dob.Valid) (hna : ¬ dob.After now) :
    (isLeap now.year = isLeap dob.year →
      (now.YearDay < dob.YearDay ↔ now.MonthDayBefore dob) ∧
      CalculateAge now dob = completedYears now dob) ∧
    (CalculateAge now dob ≠ completedYears now dob →
      (isLeap now.year = true ∧ isLeap dob.year = false) ∨
      (isLeap now.year = false ∧ isLeap dob.year = true)) := by
  have hsame : isLeap now.year = isLeap dob.year →
      (now.YearDay < dob.YearDay ↔ now.MonthDayBefore dob) ∧
      CalculateAge now dob = completedYears now dob := by
    intro hl
    have hiff := yearDay_lt_iff_monthDayBefore now dob hn hd hl
    refine ⟨hiff, ?_⟩
    have h0 := completedYears_nonneg now dob hna
    unfold completedYears at h0 ⊢
    unfold CalculateAge Time.Year
    simp only
    by_cases hlt : now.YearDay < dob.YearDay
    · have hmd := hiff.1 hlt
      rw [if_pos hmd] at h0
      rw [if_pos hlt, if_pos hmd, if_neg (by omega)]
    · have hmd : ¬ now.MonthDayBefore dob := fun h => hlt (hiff.2 h)
      rw [if_neg hmd] at h0
      rw [if_neg hlt, if_neg hmd, if_neg (by omega)]
      omega
  refine ⟨hsame, ?_⟩
  intro hne
  cases h1 : isLeap now.year <;> cases h2 : isLeap dob.year
  · exact absurd (hsame (by rw [h1, h2])).2 hne
  · exact Or.inr ⟨rfl, rfl⟩
  · exact Or.inl ⟨rfl, rfl⟩
  · exact absurd (hsame (by rw [h1, h2])).2 hne

/-- Witness for C11: on 2026-11-04 a person born on 2006-11-05, both years
being non-leap years, has the birthday still ahead and is 19. -/
theorem calculateAge_eq_completedYears_of_same_leap_witness :
    ((⟨2026, 11, 4⟩ : Time).YearDay < (⟨2006, 11, 5⟩ : Time).YearDay ↔
        (⟨2026, 11, 4⟩ : Time).MonthDayBefore ⟨2006, 11, 5⟩) ∧
      CalculateAge ⟨2026, 11, 4⟩ ⟨2006, 11, 5⟩ = completedYears ⟨2026, 11, 4⟩ ⟨2006, 11, 5⟩ :=
  (calculateAge_eq_completedYears_of_same_leap ⟨2026, 11, 4⟩ ⟨2006, 11, 5⟩
    (by decide) (by decide) (by decide)).1 (by decide)

end UserApi
